import Mathlib

/-!
Shallow embedding of the ElevAid record-management core (routes/records.js,
config/database.js).  The five endpoint handlers are modelled as pure
functions over an explicit store state; JavaScript request values are
modelled by `JVal` so that the "falsy" validation rule and the behaviour of
`.trim()` on non-string values are captured faithfully.  String operations
are carried out on `List Char` so that every definition evaluates inside
the kernel; SQLite's `LOWER` folds ASCII letters only, which is what
`lowerChar` implements (the claims under study involve ASCII data only).
-/

namespace ElevAid

/-- Whitespace recognised by trimming (the ASCII part of the JavaScript
whitespace set; the data in all claims uses only plain spaces). -/
def isJsSpace (c : Char) : Bool :=
  c == ' ' || c == '\t' || c == '\n' || c == '\r' ||
    c == Char.ofNat 11 || c == Char.ofNat 12

/-- Drop surrounding whitespace from a character list, as
`String.prototype.trim` does. -/
def trimChars (cs : List Char) : List Char :=
  ((cs.dropWhile isJsSpace).reverse.dropWhile isJsSpace).reverse

/-- Model of JavaScript `s.trim()` for strings. -/
def jsTrim (s : String) : String := String.mk (trimChars s.data)

/-- ASCII lower-casing of one character, as SQLite `LOWER` performs it. -/
def lowerChar (c : Char) : Char :=
  if 'A' ≤ c && c ≤ 'Z' then Char.ofNat (c.toNat + 32) else c

/-- ASCII upper-casing of one character. -/
def upperChar (c : Char) : Char :=
  if 'a' ≤ c && c ≤ 'z' then Char.ofNat (c.toNat - 32) else c

/-- ASCII lower-casing of a whole string (SQLite `LOWER`, and the model of
`toLowerCase` on the ASCII notes used by the claims). -/
def asciiLower (s : String) : String := String.mk (s.data.map lowerChar)

/-- Model of a JavaScript value as it can appear in a JSON request body:
a string, a number, a boolean, `null`, `undefined` (absent key), or some
other (truthy) object. -/
inductive JVal where
  | str (s : String)
  | num (n : Int)
  | boolean (b : Bool)
  | jsNull
  | undef
  | obj
deriving DecidableEq

/-- JavaScript truthiness: `undefined`, `null`, `false`, `0` and the empty
string are falsy, everything else is truthy. -/
def JVal.truthy : JVal → Bool
  | .str s => !(s == "")
  | .num n => !(n == 0)
  | .boolean b => b
  | .jsNull => false
  | .undef => false
  | .obj => true

/-- Calling `.trim()` on a value: defined (and trimming) on strings,
a thrown `TypeError` (`none`) on every non-string value. -/
def JVal.trimmed : JVal → Option String
  | .str s => some (jsTrim s)
  | _ => none

/-- One row of the `records` table
(`id, diagnosis, status, note, created_at, updated_at`). -/
structure Record where
  id : Nat
  diagnosis : String
  status : String
  note : String
  created_at : Nat
  updated_at : Nat
deriving DecidableEq

/-- State of the SQLite store: the rows in rowid order together with the
next `AUTOINCREMENT` identity to be assigned. -/
structure Store where
  records : List Record
  nextId : Nat
deriving DecidableEq

/-- Freshly initialised database: no rows, first rowid will be 1. -/
def Store.empty : Store := ⟨[], 1⟩

/-- Well-formedness maintained by the store: rowids are strictly increasing
along the table and all are smaller than the next identity. -/
def Store.WF (s : Store) : Prop :=
  ((s.records.map Record.id).Pairwise (· < ·)) ∧
    ∀ r ∈ s.records, r.id < s.nextId

/-- Request body of `POST /api/upload-record` after JSON parsing:
the three destructured keys (an absent key destructures to `undef`). -/
structure Payload where
  diagnosis : JVal
  status : JVal
  note : JVal
deriving DecidableEq

/-- Outcome of the create endpoint, one constructor per reachable response:
the two 400 validation bodies, the 201 success carrying
`result.lastInsertRowid`, and the catch-all 500 body. -/
inductive CreateResult where
  | missingFields
  | blankFields
  | created (recordId : Nat)
  | serverError
deriving DecidableEq

/-- Model of `router.post('/upload-record')`: the falsy check on the three
keys, then `diagnosis.trim() === '' || status.trim() === '' ||
note.trim() === ''` evaluated left to right (a `.trim()` call on a
non-string value throws and is caught by the 500 handler; a short-circuit
hit of `=== ''` answers 400 before later operands are evaluated), then the
`INSERT` with both timestamps set to the current time. -/
def uploadRecord (p : Payload) (now : Nat) (s : Store) : CreateResult × Store :=
  if !(p.diagnosis.truthy && p.status.truthy && p.note.truthy) then
    (.missingFields, s)
  else
    match p.diagnosis.trimmed with
    | none => (.serverError, s)
    | some d =>
      if d == "" then (.blankFields, s)
      else
        match p.status.trimmed with
        | none => (.serverError, s)
        | some st =>
          if st == "" then (.blankFields, s)
          else
            match p.note.trimmed with
            | none => (.serverError, s)
            | some n =>
              if n == "" then (.blankFields, s)
              else
                (.created s.nextId,
                  ⟨s.records ++ [⟨s.nextId, d, st, n, now, now⟩], s.nextId + 1⟩)

/-- Run a sequence of create requests (payload and request time) against the
freshly initialised store; reads never change the state, so these are the
only state transitions of the system. -/
def runCreates (ps : List (Payload × Nat)) : Store :=
  ps.foldl (fun st pn => (uploadRecord pn.1 pn.2 st).2) Store.empty

/-- Row shape returned by the two status-filter endpoints
(`SELECT id, diagnosis`). -/
structure ProblemRow where
  id : Nat
  diagnosis : String
deriving DecidableEq

/-- The query shared by `GET /api/problems/active` and
`GET /api/problems/resolved`:
`SELECT id, diagnosis FROM records WHERE LOWER(status) = LOWER(?) ORDER BY
id ASC` (the table is kept in ascending rowid order, which filtering
preserves). -/
def listByStatus (statusArg : String) (s : Store) : List ProblemRow :=
  (s.records.filter (fun r => asciiLower r.status == asciiLower statusArg)).map
    (fun r => ⟨r.id, r.diagnosis⟩)

/-- Body of the 200 response of the two status-filter endpoints. -/
structure ProblemsResponse where
  success : Bool
  problems : List ProblemRow
  count : Nat
deriving DecidableEq

/-- Model of `router.get('/problems/active')`. -/
def problemsActive (s : Store) : ProblemsResponse :=
  ⟨true, listByStatus "active" s, (listByStatus "active" s).length⟩

/-- Model of `router.get('/problems/resolved')`. -/
def problemsResolved (s : Store) : ProblemsResponse :=
  ⟨true, listByStatus "resolved" s, (listByStatus "resolved" s).length⟩

/-- Value of a decimal digit character, `none` on any other character. -/
def digitVal10 (c : Char) : Option Nat :=
  if c.isDigit then some (c.toNat - 48) else none

/-- Value of a hexadecimal digit character. -/
def hexVal (c : Char) : Option Nat :=
  if c.isDigit then some (c.toNat - 48)
  else if 'a' ≤ c && c ≤ 'f' then some (c.toNat - 97 + 10)
  else if 'A' ≤ c && c ≤ 'F' then some (c.toNat - 65 + 10)
  else none

/-- Accumulate the value of the longest leading run of digits. -/
def parseRun (base : Nat) (dv : Char → Option Nat) : List Char → Nat → Nat
  | [], acc => acc
  | c :: cs, acc =>
    match dv c with
    | some d => parseRun base dv cs (acc * base + d)
    | none => acc

/-- Model of JavaScript `parseInt(str)` with no radix argument: skip leading
whitespace, read an optional sign, auto-detect a `0x`/`0X` prefix as base
16, parse the longest leading digit run, and answer `NaN` (`none`) when no
digit is found.  (JavaScript numbers lose integer precision above 2^53;
the identities in this store stay far below that, so an exact integer
model is used.) -/
def js_parseInt (str : String) : Option Int :=
  let cs := str.data.dropWhile isJsSpace
  let sgn : Int := match cs with | '-' :: _ => -1 | _ => 1
  let cs1 : List Char :=
    match cs with
    | '-' :: r => r
    | '+' :: r => r
    | _ => cs
  match cs1 with
  | '0' :: c2 :: r =>
    if c2 == 'x' || c2 == 'X' then
      match r with
      | [] => none
      | c :: _ =>
        match hexVal c with
        | some _ => some (sgn * (parseRun 16 hexVal r 0 : Int))
        | none => none
    else
      some (sgn * (parseRun 10 digitVal10 ('0' :: c2 :: r) 0 : Int))
  | c :: r =>
    match digitVal10 c with
    | some _ => some (sgn * (parseRun 10 digitVal10 (c :: r) 0 : Int))
    | none => none
  | [] => none

/-- The query `SELECT id, note FROM records WHERE id = ?`:
first row with the requested identity, `undefined` (`none`) when no row
matches. -/
def getById (n : Int) (s : Store) : Option Record :=
  s.records.find? (fun r => ((r.id : Int)) == n)

/-- Does `pat` occur at the head of `s`?  (Literal prefix test used by the
replacement scanner.) -/
def prefOf : List Char → List Char → Bool
  | [], _ => true
  | _ :: _, [] => false
  | c :: cs, d :: ds => c == d && prefOf cs ds

/-- One fuelled scan step of `String.prototype.replace` with a global
literal pattern: at each position, when the (non-empty) pattern starts
there, emit the replacement and resume after the matched text, otherwise
keep the character.  The fuel is the length of the scanned text, which one
character or one non-empty match always consumes, so the wrapper below
never exhausts it. -/
def replaceGo (pat repl : List Char) : Nat → List Char → List Char
  | _, [] => []
  | 0, s => s
  | fuel + 1, c :: rest =>
    if !pat.isEmpty && prefOf pat (c :: rest) then
      repl ++ replaceGo pat repl fuel (List.drop (pat.length - 1) rest)
    else
      c :: replaceGo pat repl fuel rest

/-- Model of `s.replace(/pat/gi, repl)` for the literal, all-lowercase
patterns of the summary table applied to already lower-cased text (on such
text the case-insensitive flag is inert and the regular expressions contain
no metacharacters, so global literal replacement is exact). -/
def replaceAllL (pat repl s : List Char) : List Char :=
  replaceGo pat repl s.length s

/-- The fixed phrase-substitution table of `generateAISummary`, in source
order. -/
def subsTable : List (String × String) :=
  [("patient shows improvement", "the patient is getting better"),
   ("blood pressure", "blood pressure"),
   ("readings", "measurements"),
   ("symptoms", "signs of illness"),
   ("diagnosis", "medical condition"),
   ("treatment", "care plan"),
   ("medication", "medicine"),
   ("prescribed", "given"),
   ("administered", "given"),
   ("monitoring", "watching"),
   ("follow-up", "next visit"),
   ("appointment", "visit"),
   ("consultation", "doctor visit")]

/-- Model of `summary.charAt(0).toUpperCase() + summary.slice(1)`; on the
empty string both halves are empty. -/
def capFirst (s : String) : String :=
  match s.data with
  | [] => ""
  | c :: cs => String.mk (upperChar c :: cs)

/-- Model of `generateAISummary`: lower-case the note, apply the
substitutions sequentially in table order, capitalize the first character.
Every operation in the body is total on strings, so the `catch` fallback of
the source is unreachable. -/
def generateAISummary (note : String) : String :=
  capFirst
    (subsTable.foldl
      (fun acc pr => String.mk (replaceAllL pr.1.data pr.2.data acc.data))
      (asciiLower note))

/-- Outcome of `GET /api/problem-summary/:id`. -/
inductive SummaryResult where
  | validationError
  | notFound
  | ok (original_note ai_summary : String)
deriving DecidableEq

/-- Model of `router.get('/problem-summary/:id')`: the
`!id || isNaN(parseInt(id))` validation, the lookup by parsed identity, the
404 on a missing row, and the 200 carrying the stored note with its
generated summary.  (`generateAISummary` is total, so the catch-all 500 of
the source is unreachable here.) -/
def problemSummary (idStr : String) (s : Store) : SummaryResult :=
  if idStr == "" then .validationError
  else
    match js_parseInt idStr with
    | none => .validationError
    | some n =>
      match getById n s with
      | none => .notFound
      | some r => .ok r.note (generateAISummary r.note)

/-- Full row shape returned by the search endpoint. -/
structure SearchRow where
  id : Nat
  diagnosis : String
  status : String
  note : String
deriving DecidableEq

/-- Outcome of `GET /api/problems/search`. -/
inductive SearchResult where
  | validationError
  | ok (results : List SearchRow) (count : Nat) (query : String)
deriving DecidableEq

/-- SQL `LIKE` pattern matching: `%` matches any sequence, `_` any single
character, anything else itself.  (SQLite folds ASCII case inside `LIKE`,
but both operands of the search query are already passed through `LOWER`,
on which plain matching coincides with it.) -/
def likeMatch : List Char → List Char → Bool
  | [], s => s.isEmpty
  | p :: ps, s =>
    if p == '%' then s.tails.any (fun s2 => likeMatch ps s2)
    else
      match s with
      | [] => false
      | c :: s' => (p == '_' || p == c) && likeMatch ps s'

/-- Model of `router.get('/problems/search')`: the falsy/blank check on
`q`, then `WHERE LOWER(diagnosis) LIKE LOWER(?) OR LOWER(note) LIKE
LOWER(?) ORDER BY id ASC` with the parameter `'%' + q.trim() + '%'`. -/
def searchProblems (q : Option String) (s : Store) : SearchResult :=
  match q with
  | none => .validationError
  | some qs =>
    if qs == "" then .validationError
    else if jsTrim qs == "" then .validationError
    else
      let pat : List Char := '%' :: ((asciiLower (jsTrim qs)).data ++ ['%'])
      let rows :=
        (s.records.filter (fun r =>
            likeMatch pat (asciiLower r.diagnosis).data ||
              likeMatch pat (asciiLower r.note).data)).map
          (fun r => SearchRow.mk r.id r.diagnosis r.status r.note)
      .ok rows rows.length (jsTrim qs)

/-- Spec-side predicate (from the specification's words, for comparison
with the query the source issues): the needle occurs in the haystack as a
case-insensitive substring. -/
def containsCI (hay needle : String) : Bool :=
  decide ((asciiLower needle).data <:+: (asciiLower hay).data)

/-! Helper lemmas about the create endpoint. -/

theorem uploadRecord_missing (p : Payload) (now : Nat) (s : Store)
    (h : (p.diagnosis.truthy && p.status.truthy && p.note.truthy) = false) :
    uploadRecord p now s = (.missingFields, s) := by
  simp [uploadRecord, h]

theorem uploadRecord_str (ds ss ns : String) (now : Nat) (s : Store) :
    uploadRecord ⟨.str ds, .str ss, .str ns⟩ now s =
      if ds = "" ∨ ss = "" ∨ ns = "" then (.missingFields, s)
      else if jsTrim ds = "" then (.blankFields, s)
      else if jsTrim ss = "" then (.blankFields, s)
      else if jsTrim ns = "" then (.blankFields, s)
      else (.created s.nextId,
        ⟨s.records ++ [⟨s.nextId, jsTrim ds, jsTrim ss, jsTrim ns, now, now⟩],
          s.nextId + 1⟩) := by
  by_cases h1 : ds = "" <;> by_cases h2 : ss = "" <;> by_cases h3 : ns = "" <;>
    by_cases t1 : jsTrim ds = "" <;> by_cases t2 : jsTrim ss = "" <;>
    by_cases t3 : jsTrim ns = "" <;>
    simp [uploadRecord, JVal.truthy, JVal.trimmed, h1, h2, h3, t1, t2, t3]

/-- C1: a create payload with any falsy field (absent, null, empty string,
zero, false) is answered with the missing-fields validation error; when all
three fields are truthy strings and at least one trims to the empty string,
with the blank-fields validation error; and when all three are truthy
strings trimming non-blank, the record is created and the three trimmed
values are what gets stored (the second and third branches speak about
trimming and are therefore stated for string-valued fields; a truthy
non-string field is the separately analysed `.trim()`-throw case). -/
theorem upload_record_validation_spec (p : Payload) (now : Nat) (s : Store) :
    (¬(p.diagnosis.truthy ∧ p.status.truthy ∧ p.note.truthy) →
      uploadRecord p now s = (.missingFields, s)) ∧
    (∀ ds ss ns, p.diagnosis = .str ds → p.status = .str ss → p.note = .str ns →
      p.diagnosis.truthy → p.status.truthy → p.note.truthy →
      (jsTrim ds = "" ∨ jsTrim ss = "" ∨ jsTrim ns = "") →
      uploadRecord p now s = (.blankFields, s)) ∧
    (∀ ds ss ns, p.diagnosis = .str ds → p.status = .str ss → p.note = .str ns →
      p.diagnosis.truthy → p.status.truthy → p.note.truthy →
      jsTrim ds ≠ "" → jsTrim ss ≠ "" → jsTrim ns ≠ "" →
      uploadRecord p now s =
        (.created s.nextId,
          ⟨s.records ++ [⟨s.nextId, jsTrim ds, jsTrim ss, jsTrim ns, now, now⟩],
            s.nextId + 1⟩)) := by
  refine ⟨?_, ?_, ?_⟩
  · intro h
    apply uploadRecord_missing
    cases hab : (p.diagnosis.truthy && p.status.truthy && p.note.truthy)
    · rfl
    · exact absurd (by simpa [Bool.and_eq_true, and_assoc] using hab) h
  · intro ds ss ns hd hs hn td ts tn hbl
    have hp : p = ⟨.str ds, .str ss, .str ns⟩ := by
      cases p; simp_all
    rw [hd] at td; rw [hs] at ts; rw [hn] at tn
    have hd' : ds ≠ "" := by simpa [JVal.truthy] using td
    have hs' : ss ≠ "" := by simpa [JVal.truthy] using ts
    have hn' : ns ≠ "" := by simpa [JVal.truthy] using tn
    rw [hp, uploadRecord_str, if_neg (by tauto)]
    by_cases t1 : jsTrim ds = ""
    · rw [if_pos t1]
    · rw [if_neg t1]
      by_cases t2 : jsTrim ss = ""
      · rw [if_pos t2]
      · rw [if_neg t2]
        rcases hbl with h | h | h
        · exact absurd h t1
        · exact absurd h t2
        · rw [if_pos h]
  · intro ds ss ns hd hs hn td ts tn t1 t2 t3
    have hp : p = ⟨.str ds, .str ss, .str ns⟩ := by
      cases p; simp_all
    rw [hd] at td
    have hd' : ds ≠ "" := by simpa [JVal.truthy] using td
    rw [hs] at ts
    have hs' : ss ≠ "" := by simpa [JVal.truthy] using ts
    rw [hn] at tn
    have hn' : ns ≠ "" := by simpa [JVal.truthy] using tn
    rw [hp, uploadRecord_str, if_neg (by tauto), if_neg t1, if_neg t2, if_neg t3]

/-- C1 witness: one concrete payload per branch. -/
theorem upload_record_validation_spec_witness :
    uploadRecord ⟨.num 0, .str "a", .str "b"⟩ 0 Store.empty =
      (.missingFields, Store.empty) ∧
    uploadRecord ⟨.str " ", .str "a", .str "b"⟩ 0 Store.empty =
      (.blankFields, Store.empty) ∧
    uploadRecord ⟨.str " x ", .str "Active", .str "n"⟩ 7 Store.empty =
      (.created 1, ⟨[⟨1, "x", "Active", "n", 7, 7⟩], 2⟩) := by
  refine ⟨(upload_record_validation_spec ⟨.num 0, .str "a", .str "b"⟩ 0
      Store.empty).1 (by decide),
    (upload_record_validation_spec ⟨.str " ", .str "a", .str "b"⟩ 0
      Store.empty).2.1 " " "a" "b" rfl rfl rfl (by decide) (by decide)
      (by decide) (by decide), ?_⟩
  have h := (upload_record_validation_spec ⟨.str " x ", .str "Active", .str "n"⟩
      7 Store.empty).2.2 " x " "Active" "n" rfl rfl rfl (by decide) (by decide)
      (by decide) (by decide) (by decide) (by decide)
  exact h.trans (by decide)

/-- C5: a payload with a falsy field, or one whose fields are strings with
some field blank after trimming, is rejected with one of the two
validation errors and the store is left unchanged. -/
theorem create_invalid_leaves_store_unchanged (p : Payload) (now : Nat)
    (s : Store)
    (h : ¬(p.diagnosis.truthy ∧ p.status.truthy ∧ p.note.truthy) ∨
      ∃ ds ss ns, p.diagnosis = .str ds ∧ p.status = .str ss ∧
        p.note = .str ns ∧
        (jsTrim ds = "" ∨ jsTrim ss = "" ∨ jsTrim ns = "")) :
    ((uploadRecord p now s).1 = .missingFields ∨
      (uploadRecord p now s).1 = .blankFields) ∧
    (uploadRecord p now s).2 = s := by
  rcases h with h | ⟨ds, ss, ns, hd, hs, hn, hbl⟩
  · have hab : (p.diagnosis.truthy && p.status.truthy && p.note.truthy) = false := by
      cases hab : (p.diagnosis.truthy && p.status.truthy && p.note.truthy)
      · rfl
      · exact absurd (by simpa [Bool.and_eq_true, and_assoc] using hab) h
    rw [uploadRecord_missing p now s hab]
    exact ⟨Or.inl rfl, rfl⟩
  · have hp : p = ⟨.str ds, .str ss, .str ns⟩ := by
      cases p; simp_all
    rw [hp, uploadRecord_str]
    by_cases h0 : ds = "" ∨ ss = "" ∨ ns = ""
    · rw [if_pos h0]; exact ⟨Or.inl rfl, rfl⟩
    · rw [if_neg h0]
      by_cases t1 : jsTrim ds = ""
      · rw [if_pos t1]; exact ⟨Or.inr rfl, rfl⟩
      · rw [if_neg t1]
        by_cases t2 : jsTrim ss = ""
        · rw [if_pos t2]; exact ⟨Or.inr rfl, rfl⟩
        · rw [if_neg t2]
          rcases hbl with hb | hb | hb
          · exact absurd hb t1
          · exact absurd hb t2
          · rw [if_pos hb]; exact ⟨Or.inr rfl, rfl⟩

/-- C5 witness. -/
theorem create_invalid_leaves_store_unchanged_witness :
    ((uploadRecord ⟨.str "a", .undef, .str "b"⟩ 3 Store.empty).1 =
        CreateResult.missingFields ∨
      (uploadRecord ⟨.str "a", .undef, .str "b"⟩ 3 Store.empty).1 =
        CreateResult.blankFields) ∧
    (uploadRecord ⟨.str "a", .undef, .str "b"⟩ 3 Store.empty).2 = Store.empty :=
  create_invalid_leaves_store_unchanged ⟨.str "a", .undef, .str "b"⟩ 3
    Store.empty (Or.inl (by decide))

/-- C9 counterexample: two payloads with a truthy non-string field for which
the create operation does not answer the generic 500 server error — one in
which an earlier string field trims to blank (answered with the blank-fields
validation error before `.trim()` is ever called on the number), and one in
which another field is falsy (answered with the missing-fields validation
error). -/
theorem nonstring_field_claim_cex :
    ((uploadRecord ⟨.str "   ", .num 5, .str "x"⟩ 0 Store.empty).1 =
        CreateResult.blankFields ∧
      (uploadRecord ⟨.str "   ", .num 5, .str "x"⟩ 0 Store.empty).1 ≠
        CreateResult.serverError) ∧
    ((uploadRecord ⟨.num 5, .jsNull, .str "x"⟩ 0 Store.empty).1 =
        CreateResult.missingFields ∧
      (uploadRecord ⟨.num 5, .jsNull, .str "x"⟩ 0 Store.empty).1 ≠
        CreateResult.serverError) := by
  decide

/-- C9 (amended): when all three fields are truthy, some field is not a
string, and every string field checked before the first non-string field
(in diagnosis, status, note order) trims to a non-empty string, the create
operation passes the missing-fields check, the `.trim()` call on the
non-string value throws, the error is caught and reported as the generic
500 server error, and the store is unchanged. -/
theorem nonstring_field_server_error (p : Payload) (now : Nat) (s : Store)
    (htr : p.diagnosis.truthy ∧ p.status.truthy ∧ p.note.truthy)
    (h : p.diagnosis.trimmed = none ∨
      ∃ ds, p.diagnosis = .str ds ∧ jsTrim ds ≠ "" ∧
        (p.status.trimmed = none ∨
          ∃ ss, p.status = .str ss ∧ jsTrim ss ≠ "" ∧
            p.note.trimmed = none)) :
    uploadRecord p now s = (.serverError, s) := by
  obtain ⟨t1, t2, t3⟩ := htr
  have hab : (p.diagnosis.truthy && p.status.truthy && p.note.truthy) = true := by
    rw [t1, t2, t3]; rfl
  rcases h with hD | ⟨ds, hdeq, hdt, hS | ⟨ss, hseq, hst, hN⟩⟩
  · simp [uploadRecord, hab, hD]
  · have hDS : p.diagnosis.trimmed = some (jsTrim ds) := by rw [hdeq]; rfl
    simp [uploadRecord, hab, hDS, hdt, hS]
  · have hDS : p.diagnosis.trimmed = some (jsTrim ds) := by rw [hdeq]; rfl
    have hSS : p.status.trimmed = some (jsTrim ss) := by rw [hseq]; rfl
    simp [uploadRecord, hab, hDS, hdt, hSS, hst, hN]

/-- C9 witness: a number in the status field after a well-formed diagnosis. -/
theorem nonstring_field_server_error_witness :
    uploadRecord ⟨.str "a", .num 5, .str "x"⟩ 0 Store.empty =
      (.serverError, Store.empty) :=
  nonstring_field_server_error ⟨.str "a", .num 5, .str "x"⟩ 0 Store.empty
    (by decide) (Or.inr ⟨"a", rfl, by decide, Or.inl rfl⟩)

/-! Helper lemmas about the state transition of the create endpoint. -/

theorem uploadRecord_cases (p : Payload) (now : Nat) (s : Store) :
    ((uploadRecord p now s).2 = s ∧ ∀ i, (uploadRecord p now s).1 ≠ .created i) ∨
    ∃ d st n, uploadRecord p now s =
      (.created s.nextId,
        ⟨s.records ++ [⟨s.nextId, d, st, n, now, now⟩], s.nextId + 1⟩) := by
  unfold uploadRecord
  repeat' split
  all_goals first
    | (left; exact ⟨rfl, by intro i h; cases h⟩)
    | (right; exact ⟨_, _, _, rfl⟩)

theorem uploadRecord_WF (p : Payload) (now : Nat) (s : Store)
    (h : Store.WF s) : Store.WF (uploadRecord p now s).2 := by
  rcases uploadRecord_cases p now s with ⟨h2, _⟩ | ⟨d, st, n, he⟩
  · rw [h2]; exact h
  · rw [he]
    constructor
    · rw [List.map_append, List.pairwise_append]
      refine ⟨h.1, by simp, ?_⟩
      intro a ha b hb
      simp only [List.map_cons, List.map_nil, List.mem_singleton] at hb
      subst hb
      obtain ⟨r, hr, hra⟩ := List.mem_map.mp ha
      subst hra
      exact h.2 r hr
    · intro r hr
      rcases List.mem_append.mp hr with hr | hr
      · exact Nat.lt_succ_of_lt (h.2 r hr)
      · rcases List.mem_singleton.mp hr with rfl
        exact Nat.lt_succ_self _

theorem foldl_WF (ps : List (Payload × Nat)) (s : Store) (h : Store.WF s) :
    Store.WF (ps.foldl (fun st pn => (uploadRecord pn.1 pn.2 st).2) s) := by
  induction ps generalizing s with
  | nil => exact h
  | cons hd tl ih => exact ih _ (uploadRecord_WF hd.1 hd.2 s h)

theorem empty_WF : Store.WF Store.empty := by
  constructor <;> simp [Store.empty]

theorem runCreates_WF (ps : List (Payload × Nat)) : Store.WF (runCreates ps) :=
  foldl_WF ps Store.empty empty_WF

/-- C7: after any sequence of create operations, a further successful
create returns an identity strictly greater than every identity already in
the store (hence one never used before), and the resulting table is still
strictly increasing in identities — so along every sequence of successful
creates the assigned identities are monotonically increasing and unique. -/
theorem create_id_monotone_unique (ps : List (Payload × Nat)) (p : Payload)
    (now : Nat) (i : Nat) (s' : Store)
    (h : uploadRecord p now (runCreates ps) = (.created i, s')) :
    (∀ r ∈ (runCreates ps).records, r.id < i) ∧
    i ∉ (runCreates ps).records.map Record.id ∧
    ((s'.records.map Record.id).Pairwise (· < ·)) := by
  have hwf := runCreates_WF ps
  rcases uploadRecord_cases p now (runCreates ps) with ⟨_, hnone⟩ | ⟨d, st, n, he⟩
  · exact absurd (by rw [h]) (hnone i)
  · rw [he] at h
    simp only [Prod.mk.injEq] at h
    obtain ⟨h1, h2⟩ := h
    injection h1 with h1
    refine ⟨?_, ?_, ?_⟩
    · intro r hr
      rw [← h1]
      exact hwf.2 r hr
    · intro hmem
      obtain ⟨r, hr, hri⟩ := List.mem_map.mp hmem
      have := hwf.2 r hr
      omega
    · have := (uploadRecord_WF p now (runCreates ps) hwf).1
      rw [he] at this
      rw [← h2]
      exact this

/-- C7 witness: the first create on an empty store yields identity 1. -/
theorem create_id_monotone_unique_witness :
    (∀ r ∈ (runCreates []).records, r.id < 1) ∧
    1 ∉ (runCreates []).records.map Record.id ∧
    (((⟨[⟨1, "a", "s", "n", 0, 0⟩], 2⟩ : Store).records.map Record.id).Pairwise
      (· < ·)) :=
  create_id_monotone_unique [] ⟨.str "a", .str "s", .str "n"⟩ 0 1
    ⟨[⟨1, "a", "s", "n", 0, 0⟩], 2⟩ (by decide)

theorem foldl_created_eq (ps : List (Payload × Nat)) (s : Store)
    (h : ∀ r ∈ s.records, r.created_at = r.updated_at) :
    ∀ r ∈ (ps.foldl (fun st pn => (uploadRecord pn.1 pn.2 st).2) s).records,
      r.created_at = r.updated_at := by
  induction ps generalizing s with
  | nil => exact h
  | cons hd tl ih =>
    refine ih _ ?_
    show ∀ r ∈ (uploadRecord hd.1 hd.2 s).2.records, r.created_at = r.updated_at
    rcases uploadRecord_cases hd.1 hd.2 s with ⟨h2, _⟩ | ⟨d, st, n, he⟩
    · rw [h2]; exact h
    · rw [he]
      intro r hr
      rcases List.mem_append.mp hr with hr | hr
      · exact h r hr
      · rcases List.mem_singleton.mp hr with rfl
        rfl

/-- C8: in every store reachable by the API (creates are the only
state-changing operation; nothing ever updates or deletes a row), every
record carries equal `created_at` and `updated_at` timestamps. -/
theorem created_at_eq_updated_at (ps : List (Payload × Nat)) :
    ∀ r ∈ (runCreates ps).records, r.created_at = r.updated_at :=
  foldl_created_eq ps Store.empty (by simp [Store.empty])

/-- C8 witness: the record created by one concrete create request. -/
theorem created_at_eq_updated_at_witness :
    (⟨1, "a", "s", "n", 5, 5⟩ : Record).created_at =
      (⟨1, "a", "s", "n", 5, 5⟩ : Record).updated_at :=
  created_at_eq_updated_at [(⟨.str "a", .str "s", .str "n"⟩, 5)]
    ⟨1, "a", "s", "n", 5, 5⟩ (by decide)

/-- C2: the canonical golden-output regression case of the summary
transformer — the note is lower-cased, the ordered substitution table is
applied sequentially, and the first character of the result is
capitalized. -/
theorem summarize_golden_case :
    generateAISummary "Patient shows improvement in blood pressure readings" =
      "The patient is getting better in blood pressure measurements" := by
  decide

/-- C10: the summary transformer is a total function of the note (every
operation in its body is total, so it is a Lean function `String → String`
by construction); in particular on the empty string both the whole
transformer and the final capitalization step are well-defined and yield
the empty string. -/
theorem summarize_total_empty :
    generateAISummary "" = "" ∧ capFirst "" = "" := by
  decide

/-- C4: case analysis of the get-summary-by-id operation — an id string
that does not parse as an integer is answered with the validation error; a
parsed id matching no stored record is answered with the not-found error
(never an empty success, never a fault); a parsed id matching a record is
answered with success carrying the stored note and its generated summary. -/
theorem problem_summary_cases (idStr : String) (s : Store) :
    (js_parseInt idStr = none → problemSummary idStr s = .validationError) ∧
    (∀ n : Int, js_parseInt idStr = some n → getById n s = none →
      problemSummary idStr s = .notFound) ∧
    (∀ (n : Int) (r : Record), js_parseInt idStr = some n →
      getById n s = some r →
      problemSummary idStr s = .ok r.note (generateAISummary r.note)) := by
  by_cases h0 : idStr = ""
  · subst h0
    refine ⟨fun _ => by simp [problemSummary], ?_, ?_⟩
    · intro n hn
      rw [show js_parseInt "" = none from by decide] at hn
      cases hn
    · intro n r hn _
      rw [show js_parseInt "" = none from by decide] at hn
      cases hn
  · refine ⟨?_, ?_, ?_⟩
    · intro hp
      simp [problemSummary, h0, hp]
    · intro n hp hg
      simp [problemSummary, h0, hp, hg]
    · intro n r hp hg
      simp [problemSummary, h0, hp, hg]

theorem listByStatus_congr_aux (statusArg : String) (l₁ l₂ : List Record)
    (h : List.Forall₂ (fun r r' => r.id = r'.id ∧ r.diagnosis = r'.diagnosis ∧
      asciiLower r.status = asciiLower r'.status) l₁ l₂) :
    (l₁.filter (fun r => asciiLower r.status == asciiLower statusArg)).map
      (fun r => (⟨r.id, r.diagnosis⟩ : ProblemRow)) =
    (l₂.filter (fun r => asciiLower r.status == asciiLower statusArg)).map
      (fun r => (⟨r.id, r.diagnosis⟩ : ProblemRow)) := by
  induction h with
  | nil => rfl
  | @cons a b l₁' l₂' hrel hrest ih =>
    obtain ⟨hid, hdiag, hstat⟩ := hrel
    simp only [List.filter_cons, hstat]
    by_cases hc : (asciiLower b.status == asciiLower statusArg) = true
    · rw [if_pos hc, if_pos hc]
      simp only [List.map_cons, ih, hid, hdiag]
    · rw [if_neg hc, if_neg hc]
      exact ih

/-- C6: the status-filter query returns exactly the `{id, diagnosis}` pairs
of the records whose stored status equals the argument under
case-insensitive comparison, in ascending-id order; the route always
answers success with the sequence and its length as count (also when the
sequence is empty); and replacing stored statuses by strings equal up to
ASCII case never changes the result. -/
theorem list_by_status_spec (statusArg : String) (s : Store)
    (hwf : Store.WF s) :
    (∀ pr : ProblemRow, pr ∈ listByStatus statusArg s ↔
      ∃ r ∈ s.records, asciiLower r.status = asciiLower statusArg ∧
        pr = ⟨r.id, r.diagnosis⟩) ∧
    ((listByStatus statusArg s).map ProblemRow.id).Pairwise (· < ·) ∧
    ((problemsActive s).success = true ∧ (problemsResolved s).success = true ∧
      (problemsActive s).count = (problemsActive s).problems.length ∧
      (problemsActive s).problems = listByStatus "active" s ∧
      (problemsResolved s).problems = listByStatus "resolved" s) ∧
    (∀ s₂ : Store, List.Forall₂
        (fun r r' => r.id = r'.id ∧ r.diagnosis = r'.diagnosis ∧
          asciiLower r.status = asciiLower r'.status) s.records s₂.records →
      listByStatus statusArg s = listByStatus statusArg s₂) := by
  refine ⟨?_, ?_, ⟨rfl, rfl, rfl, rfl, rfl⟩, ?_⟩
  · intro pr
    simp only [listByStatus, List.mem_map, List.mem_filter, beq_iff_eq]
    constructor
    · rintro ⟨r, ⟨hr, he⟩, hpr⟩
      exact ⟨r, hr, he, hpr.symm⟩
    · rintro ⟨r, hr, he, hpr⟩
      exact ⟨r, ⟨hr, he⟩, hpr.symm⟩
  · simp only [listByStatus, List.map_map]
    rw [List.pairwise_map]
    exact List.Pairwise.filter _ (List.pairwise_map.mp hwf.1)
  · intro s₂ h
    simp only [listByStatus]
    exact listByStatus_congr_aux statusArg s.records s₂.records h

/-- C6 witness: a record stored with status `"ACTIVE"` is listed by the
active-problems query of a two-record store. -/
theorem list_by_status_spec_witness :
    (⟨1, "Hypertension"⟩ : ProblemRow) ∈ listByStatus "active"
      ⟨[⟨1, "Hypertension", "ACTIVE", "n1", 0, 0⟩,
        ⟨2, "Cold", "resolved", "n2", 0, 0⟩], 3⟩ :=
  ((list_by_status_spec "active"
      ⟨[⟨1, "Hypertension", "ACTIVE", "n1", 0, 0⟩,
        ⟨2, "Cold", "resolved", "n2", 0, 0⟩], 3⟩ ⟨by decide, by decide⟩).1
    ⟨1, "Hypertension"⟩).mpr
    ⟨⟨1, "Hypertension", "ACTIVE", "n1", 0, 0⟩, by decide, by decide, rfl⟩

/-- C4 witness: one concrete id per branch against a one-record store. -/
theorem problem_summary_cases_witness :
    problemSummary "abc" Store.empty = .validationError ∧
    problemSummary "99" ⟨[⟨1, "d", "s", "note", 0, 0⟩], 2⟩ = .notFound ∧
    problemSummary "1" ⟨[⟨1, "d", "s", "note", 0, 0⟩], 2⟩ =
      .ok "note" (generateAISummary "note") :=
  ⟨(problem_summary_cases "abc" Store.empty).1 (by decide),
    (problem_summary_cases "99" ⟨[⟨1, "d", "s", "note", 0, 0⟩], 2⟩).2.1 99
      (by decide) (by decide),
    (problem_summary_cases "1" ⟨[⟨1, "d", "s", "note", 0, 0⟩], 2⟩).2.2 1
      ⟨1, "d", "s", "note", 0, 0⟩ (by decide) (by decide)⟩

/-! Helper lemmas relating `LIKE` matching with the `%term%` parameter to
substring containment, for wildcard-free terms. -/

theorem likeMatch_pct (ps s : List Char) :
    likeMatch ('%' :: ps) s = true ↔
      ∃ s₂, s₂ <:+ s ∧ likeMatch ps s₂ = true := by
  simp [likeMatch, List.any_eq_true, List.mem_tails]

theorem likeMatch_lit : ∀ t : List Char, (∀ c ∈ t, c ≠ '%' ∧ c ≠ '_') →
    ∀ s : List Char, (likeMatch (t ++ ['%']) s = true ↔ t <+: s) := by
  intro t
  induction t with
  | nil =>
    intro _ s
    simp only [List.nil_append]
    constructor
    · intro _
      exact ⟨s, rfl⟩
    · intro _
      have hu : likeMatch ['%'] s = s.tails.any (fun s2 => likeMatch [] s2) := by
        simp [likeMatch]
      rw [hu]
      exact List.any_eq_true.mpr ⟨[], (List.mem_tails _ _).mpr ⟨s, by simp⟩, rfl⟩
  | cons a t' ih =>
    intro ht s
    have ha := ht a (List.mem_cons_self a t')
    have iht : ∀ c ∈ t', c ≠ '%' ∧ c ≠ '_' :=
      fun c hc => ht c (List.mem_cons_of_mem a hc)
    have ha1 : (a == '%') = false := beq_eq_false_iff_ne.mpr ha.1
    have ha2 : (a == '_') = false := beq_eq_false_iff_ne.mpr ha.2
    cases s with
    | nil =>
      simp [likeMatch, ha1]
    | cons c s' =>
      have hu : likeMatch ((a :: t') ++ ['%']) (c :: s') =
          ((a == c) && likeMatch (t' ++ ['%']) s') := by
        simp [likeMatch, ha1, ha2]
      rw [hu, List.cons_prefix_cons]
      simp [Bool.and_eq_true, beq_iff_eq, ih iht s']

theorem likeMatch_wrap (t s : List Char)
    (ht : ∀ c ∈ t, c ≠ '%' ∧ c ≠ '_') :
    (likeMatch ('%' :: (t ++ ['%'])) s = true) ↔ t <:+: s := by
  rw [likeMatch_pct]
  constructor
  · rintro ⟨s₂, hsuf, hm⟩
    exact List.infix_iff_prefix_suffix.mpr ⟨s₂, (likeMatch_lit t ht s₂).mp hm, hsuf⟩
  · intro hinf
    obtain ⟨u, hpre, hsuf⟩ := List.infix_iff_prefix_suffix.mp hinf
    exact ⟨u, hsuf, (likeMatch_lit t ht u).mpr hpre⟩

theorem toNat_ofNat_valid (n : Nat) (h : Nat.isValidChar n) :
    (Char.ofNat n).toNat = n := by
  unfold Char.ofNat
  rw [dif_pos h]
  unfold Char.ofNatAux Char.toNat
  rfl

theorem lowerChar_wild (c : Char) :
    (lowerChar c = '%' ↔ c = '%') ∧ (lowerChar c = '_' ↔ c = '_') := by
  unfold lowerChar
  split
  · rename_i hrange
    simp only [Bool.and_eq_true, decide_eq_true_eq] at hrange
    have h1 : 65 ≤ c.toNat := by
      have h := hrange.1
      simp [Char.le_def, UInt32.le_def, BitVec.le_def] at h
      exact h
    have h2 : c.toNat ≤ 90 := by
      have h := hrange.2
      simp [Char.le_def, UInt32.le_def, BitVec.le_def] at h
      exact h
    have hv : Nat.isValidChar (c.toNat + 32) := Or.inl (by omega)
    have ht : (Char.ofNat (c.toNat + 32)).toNat = c.toNat + 32 :=
      toNat_ofNat_valid _ hv
    constructor
    · constructor
      · intro he
        have hn := congrArg Char.toNat he
        rw [ht] at hn
        have h37 : ('%' : Char).toNat = 37 := rfl
        rw [h37] at hn
        omega
      · intro he
        subst he
        exact absurd h1 (by decide)
    · constructor
      · intro he
        have hn := congrArg Char.toNat he
        rw [ht] at hn
        have h95 : ('_' : Char).toNat = 95 := rfl
        rw [h95] at hn
        omega
      · intro he
        subst he
        exact absurd h2 (by decide)
  · exact ⟨Iff.rfl, Iff.rfl⟩

theorem asciiLower_wild (qs : String)
    (hw : ∀ c ∈ (jsTrim qs).data, c ≠ '%' ∧ c ≠ '_') :
    ∀ c ∈ (asciiLower (jsTrim qs)).data, c ≠ '%' ∧ c ≠ '_' := by
  intro c hc
  have hdata : (asciiLower (jsTrim qs)).data = (jsTrim qs).data.map lowerChar :=
    rfl
  rw [hdata] at hc
  obtain ⟨c0, hc0, rfl⟩ := List.mem_map.mp hc
  have h0 := hw c0 hc0
  have hl := lowerChar_wild c0
  exact ⟨fun he => h0.1 (hl.1.mp he), fun he => h0.2 (hl.2.mp he)⟩

/-- C3 counterexample: for the search term `"%"` (trimmed and non-blank,
but consisting of the SQL wildcard), the search endpoint returns a record
in whose diagnosis and note the term does not occur as a case-insensitive
substring; and for the all-whitespace term `" "` (whose trim, the empty
string, occurs in every string) the endpoint answers the validation error
instead of any record sequence.  Both contradict the claim quantified over
every search term. -/
theorem search_substring_claim_cex :
    searchProblems (some "%") ⟨[⟨1, "axb", "active", "n", 0, 0⟩], 2⟩ =
      .ok [⟨1, "axb", "active", "n"⟩] 1 "%" ∧
    containsCI "axb" "%" = false ∧
    containsCI "n" "%" = false ∧
    searchProblems (some " ") ⟨[⟨1, "axb", "active", "n", 0, 0⟩], 2⟩ =
      .validationError := by
  decide

/-- C3 (amended): for every truthy search term that is non-blank after
trimming and whose trimmed form contains no SQL wildcard character (`%` or
`_`), the search endpoint answers success with exactly the records whose
diagnosis or note contains the trimmed term as a case-insensitive
substring, as full rows in ascending-id order, with the sequence's length
as count (0 and the empty sequence when nothing matches) and the trimmed
term echoed back. -/
theorem search_substring_amended (qs : String) (s : Store)
    (hwf : Store.WF s) (hq : qs ≠ "") (hqt : jsTrim qs ≠ "")
    (hw : ∀ c ∈ (jsTrim qs).data, c ≠ '%' ∧ c ≠ '_') :
    searchProblems (some qs) s =
      .ok ((s.records.filter (fun r =>
              containsCI r.diagnosis (jsTrim qs) ||
                containsCI r.note (jsTrim qs))).map
            (fun r => SearchRow.mk r.id r.diagnosis r.status r.note))
        ((s.records.filter (fun r =>
              containsCI r.diagnosis (jsTrim qs) ||
                containsCI r.note (jsTrim qs))).map
            (fun r => SearchRow.mk r.id r.diagnosis r.status r.note)).length
        (jsTrim qs) ∧
    ((((s.records.filter (fun r =>
            containsCI r.diagnosis (jsTrim qs) ||
              containsCI r.note (jsTrim qs))).map
          (fun r => SearchRow.mk r.id r.diagnosis r.status r.note)).map
        SearchRow.id).Pairwise (· < ·)) := by
  have hw' := asciiLower_wild qs hw
  have hkey : ∀ r : Record,
      (likeMatch ('%' :: ((asciiLower (jsTrim qs)).data ++ ['%']))
          (asciiLower r.diagnosis).data ||
        likeMatch ('%' :: ((asciiLower (jsTrim qs)).data ++ ['%']))
          (asciiLower r.note).data) =
      (containsCI r.diagnosis (jsTrim qs) || containsCI r.note (jsTrim qs)) := by
    intro r
    congr 1
    · rw [Bool.eq_iff_iff, likeMatch_wrap _ _ hw']
      simp [containsCI]
    · rw [Bool.eq_iff_iff, likeMatch_wrap _ _ hw']
      simp [containsCI]
  have hqs : (qs == "") = false := beq_eq_false_iff_ne.mpr hq
  have hqt' : (jsTrim qs == "") = false := beq_eq_false_iff_ne.mpr hqt
  constructor
  · simp only [searchProblems, hqs, hqt', Bool.false_eq_true, if_false]
    rw [List.filter_congr (fun r _ => hkey r)]
  · rw [List.map_map, List.pairwise_map]
    exact List.Pairwise.filter _ (List.pairwise_map.mp hwf.1)

/-- C3 witness: a term needing trimming and case folding matches the single
stored record. -/
theorem search_substring_amended_witness :
    searchProblems (some " tensION ")
        ⟨[⟨1, "Hypertension", "Active", "note", 0, 0⟩], 2⟩ =
      .ok [⟨1, "Hypertension", "Active", "note"⟩] 1 "tensION" := by
  have h := (search_substring_amended " tensION "
      ⟨[⟨1, "Hypertension", "Active", "note", 0, 0⟩], 2⟩
      ⟨by decide, by decide⟩ (by decide) (by decide) (by decide)).1
  exact h.trans (by decide)

end ElevAid
